import Mathlib

/-!
Verification of the `Definition` linter of Cura's printer-linter
(`src/printer-linter/src/printerlinter/linters/defintion.py`).

The Python code operates on JSON documents (parsed with `json.loads`) and on
plain Python dictionaries.  We shallowly embed JSON values as the mutual
inductive types `JValue`/`JList`/`JFields` (keeping Python's distinction
between `int` and `float`; floats are modelled as exact decimal numbers
`mant / 10 ^ dexp`, which is faithful for the decimally representable values
occurring in definition files), Python dictionaries as association lists with
insertion order, and Python exceptions as an explicit error type `PyErr`
threaded through `Except`.  Unbounded recursion in the source
(inheritance-chain walking, recursive file loading, settings flattening) is
modelled with a fuel parameter; exhausting fuel corresponds to Python's
`RecursionError`.
-/

namespace Cura

/-- Python exceptions the linter code can raise. -/
inductive PyErr where
  | keyError (k : String)
  | typeError
  | attributeError
  | indexError
  | recursionError
deriving DecidableEq, Repr

/-- A Python float whose value is the exact decimal `mant / 10 ^ dexp`
(every float literal in a definition file is such a decimal, and the code
performs no float arithmetic, only conversion and comparison). -/
structure PyFloat where
  mant : Int
  dexp : Nat
deriving DecidableEq, Repr

/-- Value-equality of two decimal floats (cross multiplication). -/
def PyFloat.eqv (a b : PyFloat) : Bool :=
  a.mant * (10 : Int) ^ b.dexp == b.mant * (10 : Int) ^ a.dexp

/-- Comparison of a decimal float with an integer. -/
def PyFloat.eqInt (a : PyFloat) (n : Int) : Bool :=
  a.mant == n * (10 : Int) ^ a.dexp

mutual
/-- JSON values as produced by `json.loads`, keeping Python's `int`/`float`
distinction. -/
inductive JValue where
  | null
  | bool (b : Bool)
  | int (n : Int)
  | float (f : PyFloat)
  | str (s : String)
  | arr (elems : JList)
  | obj (fields : JFields)
/-- A JSON array's element list. -/
inductive JList where
  | nil
  | cons (head : JValue) (tail : JList)
/-- A JSON object's field list, in insertion order (Python dicts preserve
insertion order; `json.loads` keeps the document order). -/
inductive JFields where
  | nil
  | cons (key : String) (val : JValue) (tail : JFields)
end

/-- Build a field list from a Lean list (for concrete documents). -/
def JFields.ofList : List (String × JValue) → JFields
  | [] => .nil
  | (k, v) :: rest => .cons k v (JFields.ofList rest)

/-- The field list as a Lean list of pairs (Python `dict.items()`). -/
def JFields.toList : JFields → List (String × JValue)
  | .nil => []
  | .cons k v rest => (k, v) :: rest.toList

/-- Number of fields. -/
def JFields.length : JFields → Nat
  | .nil => 0
  | .cons _ _ rest => rest.length + 1

/-- Number of elements. -/
def JList.length : JList → Nat
  | .nil => 0
  | .cons _ rest => rest.length + 1

/-- First binding of a key (Python dict lookup; dicts built by `json.loads`
have unique keys). -/
def lookupJ : JFields → String → Option JValue
  | .nil, _ => none
  | .cons k v rest, key => if k = key then some v else lookupJ rest key

mutual
/-- Python `==` on JSON values: numeric types compare by value across
`int`/`float`/`bool`; sequences elementwise; dicts by length and lookup. -/
def pyEq : JValue → JValue → Bool
  | .null, .null => true
  | .bool a, .bool b => a == b
  | .bool a, .int n => (if a then (1 : Int) else 0) == n
  | .int n, .bool a => n == (if a then (1 : Int) else 0)
  | .bool a, .float f => f.eqInt (if a then 1 else 0)
  | .float f, .bool a => f.eqInt (if a then 1 else 0)
  | .int n, .int m => n == m
  | .int n, .float f => f.eqInt n
  | .float f, .int n => f.eqInt n
  | .float f, .float g => f.eqv g
  | .str a, .str b => a == b
  | .arr a, .arr b => pyEqList a b
  | .obj a, .obj b => a.length == b.length && pyEqFields a b
  | _, _ => false
/-- Elementwise Python `==` on array elements. -/
def pyEqList : JList → JList → Bool
  | .nil, .nil => true
  | .cons a as1, .cons b bs1 => pyEq a b && pyEqList as1 bs1
  | _, _ => false
/-- Every binding of the first dict is matched by a `==` binding in the
second (with equal lengths this is Python dict equality). -/
def pyEqFields : JFields → JFields → Bool
  | .nil, _ => true
  | .cons k v rest, b =>
      (match lookupJ b k with
       | some w => pyEq v w
       | none => false) && pyEqFields rest b
end

/-- Python truthiness of a JSON value. -/
def pyTruthy : JValue → Bool
  | .null => false
  | .bool b => b
  | .int n => n != 0
  | .float f => f.mant != 0
  | .str s => s.length != 0
  | .arr l => l.length != 0
  | .obj l => l.length != 0

/-- Characters stripped by Python's `float(str)` conversion. -/
def isPyWs (c : Char) : Bool :=
  c = ' ' || c = '\t' || c = '\n' || c = '\x0d' || c = '\x0b' || c = '\x0c'

/-- All characters are ASCII digits and there is at least one. -/
def allDigits (l : List Char) : Bool :=
  l.length != 0 && l.all (fun c => c.isDigit)

/-- Numeric value of a digit string. -/
def digitsVal (l : List Char) : Nat :=
  l.foldl (fun acc c => acc * 10 + (c.toNat - 48)) 0

/-- Split a character list at the first occurrence of `c`. -/
def splitAtChar (c : Char) : List Char → Option (List Char × List Char)
  | [] => none
  | d :: rest =>
      if d = c then some ([], rest)
      else match splitAtChar c rest with
        | some (a, b) => some (d :: a, b)
        | none => none

/-- Leading sign of a numeric literal: returns (sign, remainder). -/
def takeSign : List Char → Int × List Char
  | '-' :: rest => (-1, rest)
  | '+' :: rest => (1, rest)
  | l => (1, l)

/-- The mantissa part `digits[.digits]` of a float literal, as a scaled
integer: returns `(value, fractionalDigits)` so the mantissa equals
`value / 10 ^ fractionalDigits`. -/
def parseMantissa (l : List Char) : Option (Nat × Nat) :=
  match splitAtChar '.' l with
  | none => if allDigits l then some (digitsVal l, 0) else none
  | some (ip, fp) =>
      if (ip.all (fun c => c.isDigit)) && (fp.all (fun c => c.isDigit))
          && (ip.length + fp.length != 0) then
        some (digitsVal ip * 10 ^ fp.length + digitsVal fp, fp.length)
      else none

/-- An exponent part `[+-]digits`, as an integer. -/
def parseExp (e : List Char) : Option Int :=
  let s := takeSign e
  if allDigits s.2 then some (s.1 * (digitsVal s.2 : Int)) else none

/-- Python `float(str)` on finite decimal literals (optional sign, decimal
mantissa, optional exponent, surrounding whitespace stripped); `none` where
Python raises `ValueError`.  (`inf`/`nan` literals are out of scope: the
definition files never contain them.) -/
def parseFloat (l0 : List Char) : Option PyFloat :=
  let l1 := ((l0.dropWhile isPyWs).reverse.dropWhile isPyWs).reverse
  let s := takeSign l1
  let parts : Option ((Nat × Nat) × Int) :=
    match splitAtChar 'e' s.2 with
    | some (m, e) =>
        (match parseMantissa m, parseExp e with
         | some mv, some ex => some (mv, ex)
         | _, _ => none)
    | none =>
        match splitAtChar 'E' s.2 with
        | some (m, e) =>
            (match parseMantissa m, parseExp e with
             | some mv, some ex => some (mv, ex)
             | _, _ => none)
        | none =>
            match parseMantissa s.2 with
            | some mv => some (mv, 0)
            | none => none
  match parts with
  | none => none
  | some ((m, fd), ex) =>
      let sm : Int := s.1 * (m : Int)
      if ex ≥ 0 then some ⟨sm * (10 : Int) ^ ex.toNat, fd⟩
      else some ⟨sm, fd + (-ex).toNat⟩

/-- Drop trailing decimal zeros from `mant / 10 ^ dexp` (recursion on the
decimal exponent). -/
def PyFloat.reduceZeros : Nat → Int → PyFloat
  | 0, m => ⟨m, 0⟩
  | e + 1, m => if m % 10 == 0 then PyFloat.reduceZeros e (m / 10) else ⟨m, e + 1⟩

/-- Zero-pad a digit string on the left to length `k`. -/
def padLeft (s : List Char) (k : Nat) : List Char :=
  List.replicate (k - s.length) '0' ++ s

/-- Python `str(float)` for floats whose value is a terminating decimal of
moderate size (the only floats the definition files contain): renders
`"12.5"`, `"50.0"`, `"-0.1"`, always with a decimal point. -/
def floatStr (f : PyFloat) : String :=
  let r := PyFloat.reduceZeros f.dexp f.mant
  let sign := if r.mant < 0 then "-" else ""
  let a := r.mant.natAbs
  let ip := a / 10 ^ r.dexp
  let fp := a % 10 ^ r.dexp
  let frac := if r.dexp == 0 then "0" else String.mk (padLeft (Nat.repr fp).data r.dexp)
  sign ++ Nat.repr ip ++ "." ++ frac

/-- Python `float(x)` on a JSON value: numbers and numeric strings convert,
booleans become `0.0`/`1.0`; `None`, lists and dicts raise (`none`). -/
def tryFloat : JValue → Option PyFloat
  | .int n => some ⟨n, 0⟩
  | .float f => some f
  | .bool b => some ⟨if b then 1 else 0, 0⟩
  | .str s => parseFloat s.data
  | _ => none

/-- The `try: v = str(float(x)) except Exception: v = x` normalization from
`_isDefinedInParent`. -/
def normFloat (x : JValue) : JValue :=
  match tryFloat x with
  | some f => .str (floatStr f)
  | none => x

/-- The document store `self._definitions`: document name to parsed
document, in insertion order. -/
abbrev Store := List (String × JValue)

/-- First binding of a name in the store. -/
def storeLookup : Store → String → Option JValue
  | [], _ => none
  | (k, v) :: rest, key => if k = key then some v else storeLookup rest key

/-- `self._definitions[name]` for a string name. -/
def storeGetStr (defs : Store) (k : String) : Except PyErr JValue :=
  match storeLookup defs k with
  | some v => .ok v
  | none => .error (.keyError k)

/-- `self._definitions[x]` where `x` is an arbitrary JSON value: strings are
looked up; dicts and lists are unhashable (`TypeError`); other hashable
values are absent from a store keyed by strings (`KeyError`). -/
def storeGet (defs : Store) : JValue → Except PyErr JValue
  | .str s => storeGetStr defs s
  | .obj _ => .error .typeError
  | .arr _ => .error .typeError
  | _ => .error (.keyError "<non-string key>")

/-- Index of the first occurrence of `pat` as a contiguous sublist. -/
def firstOcc (pat : List Char) : List Char → Option Nat
  | [] => if pat.isEmpty then some 0 else none
  | c :: t => if pat.isPrefixOf (c :: t) then some 0 else (firstOcc pat t).map (· + 1)

/-- Contiguous-substring test (Python `in` on strings). -/
def isSubstr (pat s : List Char) : Bool :=
  (firstOcc pat s).isSome

/-- Membership of the string `k` in a JSON array, via Python `==`. -/
def jListContains : JList → String → Bool
  | .nil, _ => false
  | .cons h t, k => pyEq h (.str k) || jListContains t k

/-- Python `k in x` for a string `k`: dict key membership, list element
membership, substring test on strings; `TypeError` on other values. -/
def jHasKey (x : JValue) (k : String) : Except PyErr Bool :=
  match x with
  | .obj fields => .ok (lookupJ fields k).isSome
  | .arr l => .ok (jListContains l k)
  | .str s => .ok (isSubstr k.data s.data)
  | _ => .error .typeError

/-- Python `x[k]` subscription with a string key: dict lookup (`KeyError`
when absent); every other value rejects a string subscript (`TypeError`). -/
def jGetItem (x : JValue) (k : String) : Except PyErr JValue :=
  match x with
  | .obj fields =>
      (match lookupJ fields k with
       | some v => .ok v
       | none => .error (.keyError k))
  | _ => .error .typeError

/-- Python `x.get(k, None)`: only dicts have `.get` (`AttributeError`
otherwise); an absent key gives `none`. -/
def jGet (x : JValue) (k : String) : Except PyErr (Option JValue) :=
  match x with
  | .obj fields => .ok (lookupJ fields k)
  | _ => .error .attributeError

/-- Python `x.items()` as a list of pairs: only dicts (`AttributeError`
otherwise). -/
def jItems (x : JValue) : Except PyErr (List (String × JValue)) :=
  match x with
  | .obj fields => .ok fields.toList
  | _ => .error .attributeError

/-- The `base_def` property: `"fdmextruder"` when present in the store, else
`"fdmprinter"`. -/
def base_def (defs : Store) : String :=
  if (storeLookup defs "fdmextruder").isSome then "fdmextruder" else "fdmprinter"

/-- The numeric-mode computation of `_isDefinedInParent` (lines 87-90):
`is_number` iff `key` is present in the flattened base document's
`overrides` with a `type` of `"float"` or `"int"`. -/
def computeIsNumber (defs : Store) (key : String) : Except PyErr Bool := do
  let baseDoc ← storeGetStr defs (base_def defs)
  let baseOvr ← jGetItem baseDoc "overrides"
  let hk ← jHasKey baseOvr key
  if !hk then
    return false
  else do
    let entry ← jGetItem baseOvr key
    let t ← jGetItem entry "type"
    return (pyEq t (.str "float") || pyEq t (.str "int"))

/-- The comparison performed on one candidate value (lines 98-111): float
normalization applies only in numeric mode and only for the
`default_value`/`value` proposed fields; otherwise raw `==`. -/
def compareVals (is_number : Bool) (child_key : String)
    (child_value check_value : JValue) : Bool :=
  if is_number && (child_key == "default_value" || child_key == "value") then
    pyEq (normFloat child_value) (normFloat check_value)
  else
    pyEq child_value check_value

/-- Excludes only Python's `None` (the `cv is not None` test). -/
def notNone : JValue → Bool
  | .null => false
  | _ => true

/-- The candidate list built for one proposed field (lines 93-96): for
`default_value`/`value`, both of the parent entry's `default_value` and
`value` with `None`s dropped; otherwise the entry's same-named field, with
the `None` default kept in the list. -/
def checkValuesFor (entry : JValue) (child_key : String) :
    Except PyErr (List JValue) :=
  if child_key == "default_value" || child_key == "value" then do
    let a ← jGet entry "default_value"
    let b ← jGet entry "value"
    return (([a.getD .null, b.getD .null]).filter notNone)
  else do
    let c ← jGet entry child_key
    return [c.getD .null]

/-- Result quadruple of `_isDefinedInParent`:
`(is_redefined, child_key, child_value, parent)`. -/
abbrev ResolveResult := Bool × Option String × Option JValue × Option JValue

/-- Outcome of one pass over `value_dict.items()` in `_isDefinedInParent`:
either a result was returned, or the
`return self._isDefinedInParent(key, value_dict, parent["inherits"])` tail
call is taken with the given new ancestor reference. -/
inductive LoopOutcome where
  | done (r : ResolveResult)
  | recurse (newAncestor : JValue)

/-- The `for child_key, child_value in value_dict.items()` loop of
`_isDefinedInParent` (lines 91-114), over the remaining items. -/
def idipLoop (is_number : Bool) (key : String) (parent : JValue) :
    List (String × JValue) → Except PyErr LoopOutcome
  | [] => .ok (.done (false, none, none, none))
  | (child_key, child_value) :: rest => do
    let inParent ← jHasKey parent key
    if inParent then do
      let entry ← jGetItem parent key
      let cands ← checkValuesFor entry child_key
      if cands.any (fun cv => compareVals is_number child_key child_value cv) then
        return (.done (true, some child_key, some child_value, some parent))
      else do
        let hasInh ← jHasKey parent "inherits"
        if hasInh then do
          let inh ← jGetItem parent "inherits"
          return (.recurse inh)
        else
          idipLoop is_number key parent rest
    else
      idipLoop is_number key parent rest

/-- `_isDefinedInParent` (lines 82-115).  The fuel stands in for Python's
recursion limit; running out of fuel is `RecursionError`.  Note that the
chain-walking `if "inherits" in parent` test of line 112 inspects `parent`,
which is the ancestor's `overrides` *mapping*, and that the up-chain
recursion happens as soon as the first proposed field fails to match. -/
def isDefinedInParent (defs : Store) : Nat → String → JValue → JValue →
    Except PyErr ResolveResult
  | 0, _, _, _ => .error .recursionError
  | fuel + 1, key, value_dict, inherits_from => do
    let doc ← storeGet defs inherits_from
    let hasOvr ← jHasKey doc "overrides"
    if !hasOvr then do
      let inh ← jGetItem doc "inherits"
      isDefinedInParent defs fuel key value_dict inh
    else do
      let parent ← jGetItem doc "overrides"
      let is_number ← computeIsNumber defs key
      let items ← jItems value_dict
      match ← idipLoop is_number key parent items with
      | .done r => return r
      | .recurse inh => isDefinedInParent defs fuel key value_dict inh

/-- Fuel bound standing in for Python's recursion limit in the resolver
calls made by `checkRedefineOverride`; any bound exceeding the actual
inheritance-chain depth produces the same results. -/
def pyRecursionLimit : Nat := 64

/-- Rendering of an integer. -/
def intStr (n : Int) : String :=
  if n < 0 then "-" ++ Nat.repr n.natAbs else Nat.repr n.natAbs

/-- A single-quote character (for Python `repr` of strings). -/
def sq : String := String.mk [Char.ofNat 39]

/-- The opening and closing brace characters. -/
def obrace : Char := Char.ofNat 123

/-- See `obrace`. -/
def cbrace : Char := Char.ofNat 125

mutual
/-- Python `repr(x)` of a JSON value (strings quoted; escaping inside
strings is out of scope — the rendered values contain no quotes). -/
def pyRepr : JValue → String
  | .null => "None"
  | .bool true => "True"
  | .bool false => "False"
  | .int n => intStr n
  | .float f => floatStr f
  | .str s => sq ++ s ++ sq
  | .arr l => "[" ++ pyReprList l ++ "]"
  | .obj l => String.mk [obrace] ++ pyReprFields l ++ String.mk [cbrace]
/-- Comma-separated `repr`s of array elements. -/
def pyReprList : JList → String
  | .nil => ""
  | .cons h .nil => pyRepr h
  | .cons h t => pyRepr h ++ ", " ++ pyReprList t
/-- Comma-separated `repr`s of dict items. -/
def pyReprFields : JFields → String
  | .nil => ""
  | .cons k v .nil => sq ++ k ++ sq ++ ": " ++ pyRepr v
  | .cons k v t => sq ++ k ++ sq ++ ": " ++ pyRepr v ++ ", " ++ pyReprFields t
end

/-- Python `str(x)` as used in f-strings: like `repr` except that a
top-level string renders unquoted. -/
def pyStr : JValue → String
  | .str s => s
  | v => pyRepr v

/-- Python line-break characters recognized by `str.splitlines`. -/
def isLineBreak (c : Char) : Bool :=
  c = '\n' || c = '\x0d' || c = '\x0b' || c = '\x0c' ||
  c = '\x1c' || c = '\x1d' || c = '\x1e' || c = '\x85' ||
  c = Char.ofNat 0x2028 || c = Char.ofNat 0x2029

mutual
/-- `len(s.splitlines())`: number of lines, a `\x0d\n` pair counting as one
break and text after the last break counting only when non-empty. -/
def splitlinesCount : List Char → Nat
  | [] => 0
  | '\x0d' :: '\n' :: t => 1 + splitlinesCount t
  | c :: t => if isLineBreak c then 1 + splitlinesCount t else splitlinesSeg t
/-- `splitlinesCount` while inside a non-empty segment (the segment counts
as one line when terminated or when the text ends). -/
def splitlinesSeg : List Char → Nat
  | [] => 1
  | '\x0d' :: '\n' :: t => 1 + splitlinesCount t
  | c :: t => if isLineBreak c then 1 + splitlinesCount t else splitlinesSeg t
end

/-- Index of the first occurrence of `pat` at or after `i`. -/
def firstOccFrom (pat l : List Char) (i : Nat) : Option Nat :=
  (firstOcc pat (l.drop i)).map (· + i)

/-- Index of the first character satisfying `p` at or after `i`. -/
def findCharFrom (p : Char → Bool) (l : List Char) (i : Nat) : Option Nat :=
  ((l.drop i).findIdx? p).map (· + i)

/-- A successful `redefined.search(self._content)` for the pattern of
line 42, `.*(\"<key>\"[\s\:\S]*?)\{[\s\S]*?\},?`: `p` is the start of the
whole match (group 0), `q`/`b` delimit the captured group 1, and `d` is the
end of the whole match. -/
structure RMatch where
  p : Nat
  q : Nat
  b : Nat
  d : Nat
deriving DecidableEq, Repr

/-- Position `q` can start a match of the part of the pattern after `.*`:
the quoted key occurs at `q`, some `\x7b` follows it, and some `\x7d`
follows that (the lazy `[\s\:\S]*?` and `[\s\S]*?` match any characters). -/
def viableAt (content quoted : List Char) (q : Nat) : Bool :=
  quoted.isPrefixOf (content.drop q) &&
  match findCharFrom (· = obrace) content (q + quoted.length) with
  | none => false
  | some b => (findCharFrom (· = cbrace) content (b + 1)).isSome

/-- Largest viable occurrence position in `[pos, pos + count)`, keeping
`best` when none is (the greedy `.*` backtracks to the last viable quoted
key on the line). -/
def bestViable (content quoted : List Char) (best : Nat) :
    Nat → Nat → Nat
  | _, 0 => best
  | pos, count + 1 =>
      bestViable content quoted
        (if viableAt content quoted pos then pos else best) (pos + 1) count

/-- Start index of the line containing position `q` (`.*` cannot cross a
`\n`, so a match begins at this index). -/
def lineStartOf (content : List Char) (q : Nat) : Nat :=
  match (content.take q).reverse.findIdx? (· = '\n') with
  | none => 0
  | some j => q - j

/-- `re.search` of `.*(\"key\"[\s\:\S]*?)\{[\s\S]*?\},?` over the content,
the key taken literally (override keys contain no regex metacharacters).
The leading greedy `.*` cannot cross a newline, so the match starts at the
beginning of the first line carrying a viable quoted-key occurrence, and
group 1 starts at the last viable occurrence on that line; the lazy parts
end at the first following open brace and the first close brace after it; a
trailing comma is consumed when present. -/
def redefinedSearch (key : String) (content : List Char) : Option RMatch :=
  let quoted := '"' :: (key.data ++ ['"'])
  match firstOcc quoted content with
  | none => none
  | some q0 =>
      if viableAt content quoted q0 then
        let p := lineStartOf content q0
        let lineEnd := (findCharFrom (· = '\n') content p).getD content.length
        let q := bestViable content quoted q0 (q0 + 1) (lineEnd - (q0 + 1))
        match findCharFrom (· = obrace) content (q + quoted.length) with
        | none => none
        | some b =>
            match findCharFrom (· = cbrace) content (b + 1) with
            | none => none
            | some c =>
                let d := if (content.drop (c + 1)).head? = some ',' then c + 2
                  else c + 1
                some ⟨p, q, b, d⟩
      else none

/-- The slice `l[i:j]`. -/
def extractRange (l : List Char) (i j : Nat) : List Char :=
  (l.take j).drop i

/-- A file path, as components. -/
abbrev PathT := List String

/-- `printerlinter.replacement.Replacement`, as constructed on lines 50-54
(fields mirror the constructor keywords). -/
structure Replacement where
  file : PathT
  offset : Nat
  length : Nat
  replacement_text : String
deriving DecidableEq, Repr

/-- `printerlinter.diagnostic.Diagnostic`, as constructed on lines 56-62
(fields mirror the constructor keywords). -/
structure Diagnostic where
  file : PathT
  diagnostic_name : String
  message : String
  level : String
  offset : Nat
  replacements : List Replacement
deriving DecidableEq, Repr

/-- The state of a constructed `Definition` linter: `self._file`,
`self._settings`, `self._definitions` (after loading and base-document
flattening) and `self._content`. -/
structure LinterState where
  file : PathT
  settings : JValue
  defs : Store
  content : List Char

/-- The f-string message of line 59. -/
def mkMessage (key : String) (child_key : Option String)
    (child_value : Option JValue) (inheritsVal : JValue) : String :=
  "Overriding " ++ key ++ " with the same value (" ++
    (match child_key with | some s => s | none => "None") ++ ": " ++
    (match child_value with | some v => pyStr v | none => "None") ++
    ") as defined in parent definition: " ++ pyStr inheritsVal

/-- The body of `checkRedefineOverride`'s loop for one redundant override
(lines 42-62): locate the textual span (a failed search is the
`found.group()` call on `None`, an `AttributeError`), suppress the fix when
the matched text spans several lines, emit the diagnostic. -/
def diagForKey (file : PathT) (content : List Char) (key : String)
    (child_key : Option String) (child_value : Option JValue)
    (inheritsVal : JValue) : Except PyErr Diagnostic :=
  match redefinedSearch key content with
  | none => .error .attributeError
  | some m =>
      let g0 := extractRange content m.p m.d
      let reps : List Replacement :=
        if splitlinesCount g0 > 1 then []
        else [⟨file, m.q, g0.length, ""⟩]
      .ok ⟨file, "diagnostic-definition-redundant-override",
           mkMessage key child_key child_value inheritsVal, "Warning", m.p, reps⟩

/-- The loop over the target's override items in `checkRedefineOverride`
(lines 39-62). -/
def croItems (st : LinterState) (definition : JValue) :
    List (String × JValue) → Except PyErr (List Diagnostic)
  | [] => .ok []
  | (key, value_dict) :: rest => do
    let inh ← jGetItem definition "inherits"
    let r ← isDefinedInParent st.defs pyRecursionLimit key value_dict inh
    if r.1 then do
      let diag ← diagForKey st.file st.content key r.2.1 r.2.2.1 inh
      let ds ← croItems st definition rest
      return diag :: ds
    else
      croItems st definition rest

/-- `checkRedefineOverride` (lines 34-62): the first loaded document is the
target; root documents are skipped. -/
def checkRedefineOverride (st : LinterState) : Except PyErr (List Diagnostic) :=
  match st.defs with
  | [] => .error .indexError
  | (definition_name, _) :: _ => do
    let definition ← storeGetStr st.defs definition_name
    let hasOvr ← jHasKey definition "overrides"
    if hasOvr && !(definition_name == "fdmprinter" || definition_name == "fdmextruder") then do
      let ovr ← jGetItem definition "overrides"
      let items ← jItems ovr
      croItems st definition items
    else
      return []

/-- `check` (lines 24-32): the generator's yielded sequence, with `none`
marking the bare trailing `yield` (Python `None`). -/
def check (st : LinterState) : Except PyErr (List (Option Diagnostic)) := do
  let checks ← jGetItem st.settings "checks"
  let flagOpt ← jGet checks "diagnostic-definition-redundant-override"
  if pyTruthy (flagOpt.getD (.bool false)) then do
    let ds ← checkRedefineOverride st
    return (ds.map some ++ [none])
  else
    return [none]

/-- The in-memory filesystem seen by `_loadDefinitionFiles`: each present
path carries the parsed JSON document its text holds (the `JValue` models
`json.loads` of the file's text; parse failures are outside the claims). -/
abbrev FileSystem := List (PathT × JValue)

/-- Filesystem lookup (`Path.exists` plus reading). -/
def fsLookup : FileSystem → PathT → Option JValue
  | [], _ => none
  | (p, v) :: rest, q => if p = q then some v else fsLookup rest q

/-- Index of the last occurrence of a character. -/
def lastIdxOf (c : Char) (l : List Char) : Option Nat :=
  (l.reverse.findIdx? (· = c)).map (fun j => l.length - 1 - j)

/-- `pathlib`'s stem of a file name: the name minus its final dot suffix; a
dot in first position does not start a suffix. -/
def pstem (s : String) : String :=
  match lastIdxOf '.' s.data with
  | some i => if i > 0 then String.mk (s.data.take i) else s
  | none => s

/-- The file-name component of a path. -/
def lastComponent (p : PathT) : String :=
  p.getLast?.getD ""

/-- `Path(definition_file.stem).stem`: the document name, stripping the
final two suffixes of the file name (`x.def.json` gives `x`). -/
def derivedName (p : PathT) : String :=
  pstem (pstem (lastComponent p))

/-- `Path.parent`. -/
def parentDir (p : PathT) : PathT :=
  p.dropLast

/-- `_loadDefinitionFiles` (lines 64-80), with fuel for the unbounded
recursion along inheritance chains.  A missing file or an already-loaded
name is a silent no-op; the two root names resolve to a `definitions`
directory two levels up, any other name to a sibling file. -/
def loadDefinitionFiles (fs : FileSystem) : Nat → PathT → Store →
    Except PyErr Store
  | 0, _, _ => .error .recursionError
  | fuel + 1, definition_file, defs =>
    let definition_name := derivedName definition_file
    match fsLookup fs definition_file with
    | none => .ok defs
    | some doc =>
      if (storeLookup defs definition_name).isSome then .ok defs
      else do
        let defs2 := defs ++ [(definition_name, doc)]
        let hasInh ← jHasKey doc "inherits"
        if hasInh then do
          let inh ← jGetItem doc "inherits"
          let isRoot := pyEq inh (.str "fdmextruder") || pyEq inh (.str "fdmprinter")
          let fname := pyStr inh ++ ".def.json"
          let parent_file := if isRoot
            then parentDir (parentDir definition_file) ++ ["definitions", fname]
            else parentDir definition_file ++ [fname]
          loadDefinitionFiles fs fuel parent_file defs2
        else
          return defs2

/-- Python `d |= {name: setting}` on an association-list dict: an existing
key keeps its position and gets the new value, a new key is appended. -/
def dictInsert (l : List (String × JValue)) (k : String) (v : JValue) :
    List (String × JValue) :=
  match l with
  | [] => [(k, v)]
  | (k0, v0) :: rest => if k0 = k then (k0, v) :: rest else (k0, v0) :: dictInsert rest k v

mutual
/-- `_getSetting` (lines 123-128), with fuel: recurse through the node's
`children` first, then insert the node's own record under its name. -/
def getSetting : Nat → String → JValue →
    List (String × JValue) → Except PyErr (List (String × JValue))
  | 0, _, _, _ => .error .recursionError
  | fuel + 1, name, setting, settings => do
    let hasCh ← jHasKey setting "children"
    let settings2 ←
      if hasCh then do
        let children ← jGetItem setting "children"
        let items ← jItems children
        getSettingList fuel items settings
      else
        pure settings
    return (dictInsert settings2 name setting)
/-- The `for childname, child in setting["children"].items()` loop of
`_getSetting`, threading the accumulated flat dict. -/
def getSettingList : Nat → List (String × JValue) →
    List (String × JValue) → Except PyErr (List (String × JValue))
  | 0, _, _ => .error .recursionError
  | _ + 1, [], settings => .ok settings
  | fuel + 1, (n, s) :: rest, settings => do
    let settings2 ← getSetting fuel n s settings
    getSettingList fuel rest settings2
end

/-- `_loadBasePrinterSettings` (lines 117-121): flatten the base document's
`settings` tree and replace the base document in the store by the flat
mapping under an `overrides` key. -/
def loadBasePrinterSettings (fuel : Nat) (defs : Store) : Except PyErr Store := do
  let baseDoc ← storeGetStr defs (base_def defs)
  let s ← jGetItem baseDoc "settings"
  let items ← jItems s
  let settings ← getSettingList fuel items []
  return dictInsert defs (base_def defs)
      (.obj (.cons "overrides" (.obj (JFields.ofList settings)) .nil))

/-! ### Concrete scenarios used by the theorems below -/

/-- Target document A: inherits `parent_b`, overrides `speed` with
`value: 50`. -/
def docA : JValue := .obj (.cons "inherits" (.str "parent_b")
  (.cons "overrides" (.obj (.cons "speed" (.obj (.cons "value" (.int 50) .nil)) .nil)) .nil))

/-- Intermediate document B: declares only inheritance, no `overrides`. -/
def docB : JValue := .obj (.cons "inherits" (.str "parent_c") .nil)

/-- Ancestor document C: defines `speed` with `default_value: 50`. -/
def docC : JValue := .obj (.cons "overrides"
  (.obj (.cons "speed" (.obj (.cons "default_value" (.int 50) .nil)) .nil)) .nil)

/-- A base document in its post-flattening state, with empty overrides. -/
def docBase : JValue := .obj (.cons "overrides" (.obj .nil) .nil)

/-- Store for the A inherits B inherits C chain (post-flattening state). -/
def defsC2 : Store :=
  [("testprinter", docA), ("parent_b", docB), ("parent_c", docC), ("fdmprinter", docBase)]

/-- Single-line source text of document A. -/
def contentC2 : List Char :=
  "\x7b\"inherits\": \"parent_b\", \"overrides\": \x7b\"speed\": \x7b\"value\": 50\x7d\x7d\x7d".data

/-- Settings enabling the redundant-override check. -/
def settingsOn : JValue :=
  .obj (.cons "checks"
    (.obj (.cons "diagnostic-definition-redundant-override" (.bool true) .nil)) .nil)

/-- Linter state for the chain scenario, single-line source. -/
def stC2 : LinterState :=
  { file := ["testprinter.def.json"]
    settings := settingsOn
    defs := defsC2
    content := contentC2 }

/-- The diagnostic `checkRedefineOverride` produces on `stC2`. -/
def diagC2 : Diagnostic :=
  { file := ["testprinter.def.json"]
    diagnostic_name := "diagnostic-definition-redundant-override"
    message := "Overriding speed with the same value (value: 50) as defined in parent definition: parent_b"
    level := "Warning"
    offset := 0
    replacements := [{ file := ["testprinter.def.json"], offset := 39, length := 61,
                       replacement_text := "" }] }

/-! ### Simp lemmas for `Except` binds -/

/-- Bind of a success in the `Except PyErr` monad. -/
@[simp] theorem ok_bind {α β : Type} (a : α) (f : α → Except PyErr β) :
    (Except.ok a >>= f) = f a := rfl

/-- Bind of an error in the `Except PyErr` monad. -/
@[simp] theorem error_bind {α β : Type} (e : PyErr) (f : α → Except PyErr β) :
    ((Except.error e : Except PyErr α) >>= f) = .error e := rfl

/-- `pure` in the `Except PyErr` monad is `ok`. -/
@[simp] theorem pure_eq_ok {α : Type} (a : α) :
    (pure a : Except PyErr α) = .ok a := rfl

/-- The overrides mapping of ancestor C in the chain scenario. -/
def cOverrides : JValue :=
  .obj (.cons "speed" (.obj (.cons "default_value" (.int 50) .nil)) .nil)

/-- Parent document for the numeric-comparison scenario: `speed` declared
with `default_value: 10.0` (a float), `speed2` with `value: 10` (an int). -/
def docParentN : JValue := .obj (.cons "overrides"
  (.obj (.cons "speed" (.obj (.cons "default_value" (.float ⟨100, 1⟩) .nil))
    (.cons "speed2" (.obj (.cons "value" (.int 10) .nil)) .nil))) .nil)

/-- Flattened base for the numeric scenario: `speed` has type `"float"`,
`speed2` is absent (hence non-numeric). -/
def docBaseN : JValue := .obj (.cons "overrides"
  (.obj (.cons "speed" (.obj (.cons "type" (.str "float") .nil)) .nil)) .nil)

/-- Store for the numeric-comparison scenario. -/
def defsC5 : Store := [("vnum", .obj (.cons "inherits" (.str "parentn") .nil)),
  ("parentn", docParentN), ("fdmprinter", docBaseN)]

/-! ### Claims -/

/-- C5: for the numeric-typed key `speed`, the proposed override
`value: 10` (int) is judged redundant against the parent's
`default_value: 10.0` (float) through float-string normalization, and the
resolver reports the match; for the key `speed2`, absent from the flattened
base and hence non-numeric, the proposed `value: "10"` (string) against the
parent's `value: 10` (int) is judged not redundant because the raw values
compare unequal. -/
theorem c5_numeric_equivalence :
    isDefinedInParent defsC5 pyRecursionLimit "speed"
        (.obj (.cons "value" (.int 10) .nil)) (.str "parentn")
      = .ok (true, some "value", some (.int 10),
          some (.obj (.cons "speed" (.obj (.cons "default_value" (.float ⟨100, 1⟩) .nil))
            (.cons "speed2" (.obj (.cons "value" (.int 10) .nil)) .nil)))) ∧
    isDefinedInParent defsC5 pyRecursionLimit "speed2"
        (.obj (.cons "value" (.str "10") .nil)) (.str "parentn")
      = .ok (false, none, none, none) :=
  ⟨rfl, rfl⟩

/-- C2 counterexample: on the chain A inherits B inherits C where B has no
`overrides` and C defines `speed` with `default_value: 50`, the override
`value: 50` in A is judged redundant, but the emitted diagnostic's message
names `parent_b` (A's immediate `inherits`) and does not mention
`parent_c`, contradicting the claimed attribution to ancestor C. -/
theorem c2_counterexample :
    checkRedefineOverride stC2 = .ok [diagC2] ∧
    isSubstr "parent_c".data diagC2.message.data = false ∧
    isSubstr "parent_b".data diagC2.message.data = true :=
  ⟨rfl, rfl, rfl⟩

/-- C2 amended: on the chain A inherits B inherits C (B without
`overrides`, C defining `speed` with `default_value: 50`), the override
`value: 50` in A is judged redundant — the resolver skips through B and
matches against C's overrides mapping, which it returns — but the emitted
diagnostic attributes the inherited value to A's immediate `inherits`
ancestor B (`parent_b`), not to C. -/
theorem c2_amended :
    isDefinedInParent defsC2 pyRecursionLimit "speed"
        (.obj (.cons "value" (.int 50) .nil)) (.str "parent_b")
      = .ok (true, some "value", some (.int 50), some cOverrides) ∧
    checkRedefineOverride stC2 = .ok [diagC2] ∧
    diagC2.message =
      "Overriding speed with the same value (value: 50) as defined in parent definition: parent_b" :=
  ⟨rfl, rfl, rfl⟩

/-- C8: when the configuration flag
`checks.diagnostic-definition-redundant-override` is `False` or absent,
`check` yields no diagnostic at all — only the bare trailing `yield` —
whatever the loaded documents and source text are. -/
theorem c8_disabled_rule (st : LinterState) (checks : JValue) (fv : Option JValue)
    (hc : jGetItem st.settings "checks" = .ok checks)
    (hf : jGet checks "diagnostic-definition-redundant-override" = .ok fv)
    (hfv : fv = none ∨ fv = some (.bool false)) :
    check st = .ok [none] := by
  rcases hfv with h | h <;> subst h <;> simp [check, hc, hf, pyTruthy]

/-- Settings with the redundant-override check disabled. -/
def settingsOff : JValue :=
  .obj (.cons "checks"
    (.obj (.cons "diagnostic-definition-redundant-override" (.bool false) .nil)) .nil)

/-- Witness for C8: the chain document store of `stC2` is full of a
redundant override, yet with the flag set to `False` the check yields only
the trailing `None`. -/
theorem c8_disabled_rule_witness :
    check { stC2 with settings := settingsOff } = .ok [none] :=
  c8_disabled_rule { stC2 with settings := settingsOff }
    (.obj (.cons "diagnostic-definition-redundant-override" (.bool false) .nil))
    (some (.bool false)) rfl rfl (Or.inr rfl)

/-- C10: when the target document has `overrides` and its resolution
consults an ancestor name that is missing from the document store, the
store subscript in `_isDefinedInParent` raises `KeyError` and
`checkRedefineOverride` propagates it — the silent tolerance of missing
parents at load time does not extend to chain resolution. -/
theorem c10_missing_ancestor_keyerror (st : LinterState) (name P : String)
    (defn ovr vd : JValue) (rest : Store) (k : String)
    (restItems : List (String × JValue))
    (hdefs : st.defs = (name, defn) :: rest)
    (hroot : (name == "fdmprinter" || name == "fdmextruder") = false)
    (hovr : jHasKey defn "overrides" = .ok true)
    (hget : jGetItem defn "overrides" = .ok ovr)
    (hitems : jItems ovr = .ok ((k, vd) :: restItems))
    (hinh : jGetItem defn "inherits" = .ok (.str P))
    (hmiss : storeLookup st.defs P = none) :
    checkRedefineOverride st = .error (.keyError P) := by
  have hmiss2 : storeLookup ((name, defn) :: rest) P = none := by
    rw [← hdefs]; exact hmiss
  have hfuel : ∀ fuel, isDefinedInParent ((name, defn) :: rest) (fuel + 1) k vd (.str P)
      = .error (.keyError P) := by
    intro fuel
    simp only [isDefinedInParent, storeGet, storeGetStr, hmiss2, error_bind]
  have hres : isDefinedInParent ((name, defn) :: rest) pyRecursionLimit k vd (.str P)
      = .error (.keyError P) := by
    rw [show pyRecursionLimit = 63 + 1 from rfl]; exact hfuel 63
  simp only [checkRedefineOverride, hdefs, storeGetStr, storeLookup, if_pos,
    ok_bind, error_bind, hovr, hroot, Bool.not_false, Bool.and_true, if_true,
    hget, hitems, croItems, hinh, hres]

/-- A target document inheriting a name whose file was never loaded. -/
def docT10 : JValue := .obj (.cons "inherits" (.str "ghost")
  (.cons "overrides" (.obj (.cons "jerk" (.obj (.cons "value" (.int 5) .nil)) .nil)) .nil))

/-- State whose store lacks the target's ancestor `ghost`. -/
def stC10 : LinterState :=
  { file := ["tp.def.json"], settings := settingsOn,
    defs := [("tp", docT10)], content := contentC2 }

/-- Witness for C10: the resolver's store lookup of the absent ancestor
`ghost` surfaces as a `KeyError` from `checkRedefineOverride`. -/
theorem c10_missing_ancestor_keyerror_witness :
    checkRedefineOverride stC10 = .error (.keyError "ghost") :=
  c10_missing_ancestor_keyerror stC10 "tp" "ghost" docT10
    (.obj (.cons "jerk" (.obj (.cons "value" (.int 5) .nil)) .nil))
    (.obj (.cons "value" (.int 5) .nil)) [] "jerk" [] rfl rfl rfl rfl rfl rfl rfl

/-- C9 counterexample: for a settings configuration without a `checks`
mapping, `check` raises `KeyError` before yielding anything at all, so its
yielded sequence does not end in a trailing `None` — the claimed trailing
`None` is not produced for *every* settings configuration. -/
theorem c9_counterexample :
    check { stC2 with settings := .obj .nil } = .error (.keyError "checks") :=
  rfl

/-- C9 amended: whenever the settings define a `checks` mapping and the
enabled branch (if taken) completes without raising, the sequence yielded
by `check` is the diagnostics followed by exactly one trailing `None`, also
when the rule is disabled. -/
theorem c9_amended (st : LinterState) (checks : JValue) (fv : Option JValue)
    (ds : List Diagnostic)
    (hc : jGetItem st.settings "checks" = .ok checks)
    (hf : jGet checks "diagnostic-definition-redundant-override" = .ok fv)
    (hds : (if pyTruthy (fv.getD (.bool false)) = true then checkRedefineOverride st
            else .ok []) = .ok ds) :
    check st = .ok (ds.map some ++ [none]) ∧
    (ds.map some ++ [none]).getLast? = some none ∧
    (ds.map some ++ [none]).count none = 1 := by
  refine ⟨?_, ?_, ?_⟩
  · cases hp : pyTruthy (fv.getD (.bool false)) with
    | false =>
        rw [hp] at hds
        simp only [Bool.false_eq_true, if_false] at hds
        cases hds
        simp [check, hc, hf, hp]
    | true =>
        rw [hp] at hds
        simp only [eq_self_iff_true, if_true] at hds
        simp [check, hc, hf, hp, hds]
  · exact List.getLast?_concat _
  · rw [List.count_append]
    simp [List.count_eq_zero]

/-- Witness for C9: on the enabled single-line chain scenario, `check`
yields its one diagnostic and then exactly one trailing `None`. -/
theorem c9_amended_witness :
    check stC2 = .ok ([diagC2].map some ++ [none]) ∧
    ([diagC2].map some ++ [none]).getLast? = some none ∧
    ([diagC2].map some ++ [none]).count none = 1 :=
  c9_amended stC2
    (.obj (.cons "diagnostic-definition-redundant-override" (.bool true) .nil))
    (some (.bool true)) [diagC2] rfl rfl rfl

/-- Pretty-printed multi-line source text of document A. -/
def contentC4m : List Char :=
  ("\x7b\n  \"inherits\": \"parent_b\",\n  \"overrides\": \x7b\n    \"speed\": \x7b\n      \"value\": 50\n    \x7d\n  \x7d\n\x7d").data

/-- The diagnostic produced on the multi-line source: fix suppressed. -/
def diagC4m : Diagnostic :=
  { file := ["testprinter.def.json"]
    diagnostic_name := "diagnostic-definition-redundant-override"
    message := "Overriding speed with the same value (value: 50) as defined in parent definition: parent_b"
    level := "Warning"
    offset := 45
    replacements := [] }

/-- C4 counterexample: on the single-line source the regex match is
`⟨p, q, b, d⟩ = ⟨0, 39, 48, 61⟩` — captured group 1 spans `[39, 48)`, the
whole match spans `[0, 61)` — and the single emitted replacement has offset
39 (the captured group's start) but length 61, the length of the *whole
match*, not the captured group's length 9: the claimed "offset and length
are those of the captured inner group" is false for the length. -/
theorem c4_counterexample :
    checkRedefineOverride stC2 = .ok [diagC2] ∧
    redefinedSearch "speed" contentC2 = some ⟨0, 39, 48, 61⟩ ∧
    diagC2.replacements = [⟨["testprinter.def.json"], 39, 61, ""⟩] ∧
    (48 - 39 : Nat) ≠ 61 :=
  ⟨rfl, rfl, rfl, by decide⟩

/-- C4 amended: for every redundant override whose matched text lies on a
single source line, exactly one `Replacement` with empty replacement text
is emitted, with the byte offset of the captured inner group's start but
the byte length of the entire match; when the matched text covers more than
one line the diagnostic is still emitted with zero replacements (shown in
general for the per-override diagnostic builder, and end-to-end on the
pretty-printed multi-line source). -/
theorem c4_amended :
    (∀ (file : PathT) (content : List Char) (key : String) (ck : Option String)
        (cv : Option JValue) (inh : JValue) (m : RMatch) (d : Diagnostic),
      redefinedSearch key content = some m →
      diagForKey file content key ck cv inh = .ok d →
      (splitlinesCount (extractRange content m.p m.d) ≤ 1 →
        d.replacements = [⟨file, m.q, (extractRange content m.p m.d).length, ""⟩]) ∧
      (1 < splitlinesCount (extractRange content m.p m.d) →
        d.replacements = [])) ∧
    checkRedefineOverride { stC2 with content := contentC4m } = .ok [diagC4m] ∧
    diagC4m.replacements = [] := by
  refine ⟨?_, rfl, rfl⟩
  intro file content key ck cv inh m d h1 h2
  rw [diagForKey, h1] at h2
  cases h2
  constructor
  · intro hle
    simp only [if_neg (by omega : ¬ splitlinesCount (extractRange content m.p m.d) > 1)]
  · intro hgt
    simp only [if_pos hgt]

/-- Witness for C4: instantiating the amended statement on the single-line
scenario yields the one empty-text replacement with offset 39 (group 1
start) and length 61 (whole-match length). -/
theorem c4_amended_witness :
    diagC2.replacements =
      [⟨["testprinter.def.json"], 39,
        (extractRange contentC2 0 61).length, ""⟩] :=
  (c4_amended.1 ["testprinter.def.json"] contentC2 "speed" (some "value")
    (some (.int 50)) (.str "parent_b") ⟨0, 39, 48, 61⟩ diagC2 rfl rfl).1
    (by decide)

/-- Overrides mapping of the parent in the `minimum_value` scenario. -/
def pfields3 : JFields :=
  .cons "speed" (.obj (.cons "minimum_value" (.int 10) .nil)) .nil

/-- Parent document declaring `speed.minimum_value: 10` (an int). -/
def docP3 : JValue := .obj (.cons "overrides" (.obj pfields3) .nil)

/-- Flattened base typing `speed` as `"int"` (numeric mode). -/
def docBase3 : JValue := .obj (.cons "overrides"
  (.obj (.cons "speed" (.obj (.cons "type" (.str "int") .nil)) .nil)) .nil)

/-- Store for the `minimum_value` scenario. -/
def defsC3 : Store := [("p3", docP3), ("fdmprinter", docBase3)]

/-- C3 counterexample: for the key `speed`, numeric in the flattened base
(`type: "int"`), a proposed `minimum_value: "10"` (string) against the
parent's `minimum_value: 10` (int) would match under float-string
normalization — `normFloat` sends both sides to `"10.0"` — yet the
resolver judges it not redundant, because fields other than
`default_value`/`value` are compared raw even in numeric mode. -/
theorem c3_counterexample :
    computeIsNumber defsC3 "speed" = .ok true ∧
    pyEq (normFloat (.str "10")) (normFloat (.int 10)) = true ∧
    isDefinedInParent defsC3 pyRecursionLimit "speed"
        (.obj (.cons "minimum_value" (.str "10") .nil)) (.str "p3")
      = .ok (false, none, none, none) :=
  ⟨rfl, rfl, rfl⟩

/-- C3 amended: float-string normalization applies only when the proposed
field is `default_value` or `value` and the key's flattened-base type is
numeric; every other proposed field is compared raw (Python `==`) even in
numeric mode, and in non-numeric mode every comparison is raw.  In
particular the resolver's verdict for a single proposed field other than
`default_value`/`value`, present in the nearest ancestor's entry, is
exactly raw equality regardless of the numeric mode. -/
theorem c3_amended :
    (∀ (defs : Store) (fuel : Nat) (key ck : String) (cv pv doc : JValue)
        (pfields efields : JFields) (inh : JValue) (isNum : Bool),
      storeGet defs inh = .ok doc →
      jHasKey doc "overrides" = .ok true →
      jGetItem doc "overrides" = .ok (.obj pfields) →
      computeIsNumber defs key = .ok isNum →
      lookupJ pfields key = some (.obj efields) →
      ck ≠ "default_value" → ck ≠ "value" →
      lookupJ efields ck = some pv →
      lookupJ pfields "inherits" = none →
      isDefinedInParent defs (fuel + 1) key (.obj (.cons ck cv .nil)) inh
        = .ok (if pyEq cv pv then (true, some ck, some cv, some (.obj pfields))
               else (false, none, none, none))) ∧
    (∀ (isNum : Bool) (ck : String) (v cv : JValue),
      ck ≠ "default_value" → ck ≠ "value" → compareVals isNum ck v cv = pyEq v cv) ∧
    (∀ (ck : String) (v cv : JValue), compareVals false ck v cv = pyEq v cv) ∧
    (∀ (v cv : JValue), compareVals true "value" v cv
      = pyEq (normFloat v) (normFloat cv)) ∧
    (∀ (v cv : JValue), compareVals true "default_value" v cv
      = pyEq (normFloat v) (normFloat cv)) := by
  have hcv : ∀ (isNum : Bool) (ck : String) (v cv : JValue),
      ck ≠ "default_value" → ck ≠ "value" → compareVals isNum ck v cv = pyEq v cv := by
    intro isNum ck v cv h1 h2
    have hb1 : (ck == "default_value") = false := beq_eq_false_iff_ne.mpr h1
    have hb2 : (ck == "value") = false := beq_eq_false_iff_ne.mpr h2
    simp [compareVals, hb1, hb2]
  refine ⟨?_, hcv, ?_, fun v cv => rfl, fun v cv => rfl⟩
  · intro defs fuel key ck cv pv doc pfields efields inh isNum
      hdoc hovr hpar hnum hkey hck1 hck2 hpv hnoinh
    have hb1 : (ck == "default_value") = false := beq_eq_false_iff_ne.mpr hck1
    have hb2 : (ck == "value") = false := beq_eq_false_iff_ne.mpr hck2
    have hhk : jHasKey (.obj pfields) key = .ok true := by simp [jHasKey, hkey]
    have hgi : jGetItem (.obj pfields) key = .ok (.obj efields) := by
      simp [jGetItem, hkey]
    have hgc : jGet (.obj efields) ck = .ok (some pv) := by simp [jGet, hpv]
    have hhi : jHasKey (.obj pfields) "inherits" = .ok false := by
      simp [jHasKey, hnoinh]
    have hcands : checkValuesFor (.obj efields) ck = .ok [pv] := by
      simp [checkValuesFor, hb1, hb2, hgc]
    have hcmp : compareVals isNum ck cv pv = pyEq cv pv := hcv isNum ck cv pv hck1 hck2
    have hj1 : jItems (JValue.obj (.cons ck cv .nil)) = .ok [(ck, cv)] := rfl
    cases hpe : pyEq cv pv with
    | true =>
        simp [isDefinedInParent, hdoc, hovr, hpar, hnum, hj1, idipLoop, hhk, hgi,
          hcands, hcmp, hpe]
    | false =>
        simp [isDefinedInParent, hdoc, hovr, hpar, hnum, hj1, idipLoop, hhk, hgi,
          hcands, hcmp, hpe, hhi]
  · intro ck v cv
    simp [compareVals]

/-- Witness for C3: instantiating the amended statement on the
`minimum_value` scenario (numeric mode on): the verdict equals raw
equality, here false. -/
theorem c3_amended_witness :
    isDefinedInParent defsC3 (0 + 1) "speed"
        (.obj (.cons "minimum_value" (.str "10") .nil)) (.str "p3")
      = .ok (if pyEq (.str "10") (.int 10)
             then (true, some "minimum_value", some (.str "10"), some (.obj pfields3))
             else (false, none, none, none)) :=
  c3_amended.1 defsC3 0 "speed" "minimum_value" (.str "10") (.int 10) docP3
    pfields3 (.cons "minimum_value" (.int 10) .nil) (.str "p3") true
    rfl rfl rfl rfl rfl (by decide) (by decide) rfl rfl

/-- Appending to a store preserves present names. -/
theorem storeLookup_append_left (defs l : Store) (k : String)
    (h : (storeLookup defs k).isSome) : (storeLookup (defs ++ l) k).isSome := by
  induction defs with
  | nil => simp [storeLookup] at h
  | cons hd tl ih =>
      obtain ⟨a, b⟩ := hd
      by_cases hak : a = k
      · simp [storeLookup, hak]
      · simp only [storeLookup, if_neg hak] at h
        rw [List.cons_append]
        simp only [storeLookup, if_neg hak]
        exact ih h

/-- The name just appended to a store is present. -/
theorem storeLookup_append_self (defs : Store) (k : String) (v : JValue) :
    (storeLookup (defs ++ [(k, v)]) k).isSome := by
  induction defs with
  | nil => simp [storeLookup]
  | cons hd tl ih =>
      obtain ⟨a, b⟩ := hd
      by_cases hak : a = k
      · simp [storeLookup, hak]
      · simp only [List.cons_append, storeLookup, if_neg hak]
        exact ih

/-- A successful `_loadDefinitionFiles` run never removes a name from the
store. -/
theorem loadDefinitionFiles_mono (fs : FileSystem) :
    ∀ (fuel : Nat) (p : PathT) (defs d : Store) (k : String),
      loadDefinitionFiles fs fuel p defs = .ok d →
      (storeLookup defs k).isSome → (storeLookup d k).isSome := by
  intro fuel
  induction fuel with
  | zero =>
      intro p defs d k h
      rw [loadDefinitionFiles] at h
      exact Except.noConfusion h
  | succ n ih =>
      intro p defs d k h hk
      rw [loadDefinitionFiles] at h
      cases hf : fsLookup fs p with
      | none => simp only [hf] at h; cases h; exact hk
      | some doc =>
          simp only [hf] at h
          by_cases hin : (storeLookup defs (derivedName p)).isSome
          · rw [if_pos hin] at h; cases h; exact hk
          · rw [if_neg hin] at h
            cases hjk : jHasKey doc "inherits" with
            | error e => rw [hjk] at h; exact Except.noConfusion h
            | ok hasInh =>
                rw [hjk, ok_bind] at h
                cases hasInh with
                | false =>
                    simp only [Bool.false_eq_true, if_false, pure_eq_ok] at h
                    cases h
                    exact storeLookup_append_left defs _ k hk
                | true =>
                    simp only [if_true] at h
                    cases hji : jGetItem doc "inherits" with
                    | error e => rw [hji] at h; exact Except.noConfusion h
                    | ok inh =>
                        rw [hji, ok_bind] at h
                        exact ih _ _ _ k h (storeLookup_append_left defs _ k hk)

/-- After a successful load of an existing file, the derived name is in the
store. -/
theorem loadDefinitionFiles_name (fs : FileSystem) (fuel : Nat) (p : PathT)
    (defs d : Store) (doc : JValue)
    (h : loadDefinitionFiles fs (fuel + 1) p defs = .ok d)
    (hf : fsLookup fs p = some doc) :
    (storeLookup d (derivedName p)).isSome := by
  rw [loadDefinitionFiles] at h
  simp only [hf] at h
  by_cases hin : (storeLookup defs (derivedName p)).isSome
  · rw [if_pos hin] at h; cases h; exact hin
  · rw [if_neg hin] at h
    cases hjk : jHasKey doc "inherits" with
    | error e => rw [hjk] at h; exact Except.noConfusion h
    | ok hasInh =>
        rw [hjk, ok_bind] at h
        cases hasInh with
        | false =>
            simp only [Bool.false_eq_true, if_false, pure_eq_ok] at h
            cases h
            exact storeLookup_append_self defs _ doc
        | true =>
            simp only [if_true] at h
            cases hji : jGetItem doc "inherits" with
            | error e => rw [hji] at h; exact Except.noConfusion h
            | ok inh =>
                rw [hji, ok_bind] at h
                exact loadDefinitionFiles_mono fs fuel _ _ d _ h
                  (storeLookup_append_self defs _ doc)

/-- C6: `_loadDefinitionFiles` is a silent no-op when the path does not
exist or the derived document name is already loaded, and loading the same
path a second time leaves the store unchanged after the first load
succeeded — a missing parent terminates the recursion without error. -/
theorem c6_idempotent_loading :
    (∀ (fs : FileSystem) (fuel : Nat) (p : PathT) (defs : Store),
      fsLookup fs p = none → loadDefinitionFiles fs (fuel + 1) p defs = .ok defs) ∧
    (∀ (fs : FileSystem) (fuel : Nat) (p : PathT) (defs : Store),
      (storeLookup defs (derivedName p)).isSome →
      loadDefinitionFiles fs (fuel + 1) p defs = .ok defs) ∧
    (∀ (fs : FileSystem) (f1 f2 : Nat) (p : PathT) (defs d1 : Store),
      loadDefinitionFiles fs (f1 + 1) p defs = .ok d1 →
      loadDefinitionFiles fs (f2 + 1) p d1 = .ok d1) := by
  have hnone : ∀ (fs : FileSystem) (fuel : Nat) (p : PathT) (defs : Store),
      fsLookup fs p = none → loadDefinitionFiles fs (fuel + 1) p defs = .ok defs := by
    intro fs fuel p defs h
    rw [loadDefinitionFiles]
    simp only [h]
  have hpresent : ∀ (fs : FileSystem) (fuel : Nat) (p : PathT) (defs : Store),
      (storeLookup defs (derivedName p)).isSome →
      loadDefinitionFiles fs (fuel + 1) p defs = .ok defs := by
    intro fs fuel p defs h
    rw [loadDefinitionFiles]
    cases hf : fsLookup fs p with
    | none => rfl
    | some doc => simp only [if_pos h]
  refine ⟨hnone, hpresent, ?_⟩
  intro fs f1 f2 p defs d1 h
  cases hf : fsLookup fs p with
  | none =>
      rw [hnone fs f1 p defs hf] at h
      cases h
      exact hnone fs f2 p defs hf
  | some doc =>
      exact hpresent fs f2 p d1 (loadDefinitionFiles_name fs f1 p defs d1 doc h hf)

/-- A two-document chain on disk: `child.def.json` inherits `papa`. -/
def docChild : JValue := .obj (.cons "inherits" (.str "papa") .nil)

/-- The parent document, declaring nothing further. -/
def docPapa : JValue := .obj .nil

/-- The filesystem holding the two files side by side. -/
def fsC6 : FileSystem :=
  [(["defs", "child.def.json"], docChild), (["defs", "papa.def.json"], docPapa)]

/-- The store produced by loading `child.def.json`. -/
def storeC6 : Store := [("child", docChild), ("papa", docPapa)]

/-- Witness for C6: re-loading the child path on the store the first load
produced leaves that store unchanged. -/
theorem c6_idempotent_loading_witness :
    loadDefinitionFiles fsC6 (9 + 1) ["defs", "child.def.json"] storeC6 = .ok storeC6 :=
  c6_idempotent_loading.2.2 fsC6 9 9 ["defs", "child.def.json"] [] storeC6 rfl

/-- A list-`any` is false when the predicate fails on every element. -/
theorem any_false {α : Type} {l : List α} {p : α → Bool}
    (h : ∀ x ∈ l, p x = false) : l.any p = false := by
  simp only [List.any_eq_false]
  intro x hx
  simp [h x hx]

/-- C1: at the nearest ancestor whose document has an `overrides` field,
when that mapping (`parent`) defines the key but no proposed field matches,
the check recurses one level further using `parent["inherits"]` as the new
ancestor as soon as the overrides mapping carries an `inherits` binding;
`(False, None, None, None)` is returned only when the mapping has no
`inherits` binding, i.e. when this chain of `overrides`-level `inherits`
references is exhausted without a match. -/
theorem c1_chain_recursion (defs : Store) (fuel : Nat) (key : String)
    (value_dict doc entry inh : JValue) (pfields : JFields)
    (items : List (String × JValue)) (isNum : Bool)
    (hdoc : storeGet defs inh = .ok doc)
    (hovr : jHasKey doc "overrides" = .ok true)
    (hpar : jGetItem doc "overrides" = .ok (.obj pfields))
    (hnum : computeIsNumber defs key = .ok isNum)
    (hitems : jItems value_dict = .ok items)
    (hne : items ≠ [])
    (hentry : lookupJ pfields key = some entry)
    (hnomatch : ∀ p ∈ items, ∃ cands, checkValuesFor entry p.1 = .ok cands ∧
        ∀ c ∈ cands, compareVals isNum p.1 p.2 c = false) :
    (∀ inh2, lookupJ pfields "inherits" = some inh2 →
        isDefinedInParent defs (fuel + 1) key value_dict inh
          = isDefinedInParent defs fuel key value_dict inh2) ∧
    (lookupJ pfields "inherits" = none →
        isDefinedInParent defs (fuel + 1) key value_dict inh
          = .ok (false, none, none, none)) := by
  have hhk : jHasKey (.obj pfields) key = .ok true := by simp [jHasKey, hentry]
  have hgi : jGetItem (.obj pfields) key = .ok entry := by simp [jGetItem, hentry]
  constructor
  · intro inh2 hinh2
    have hhi : jHasKey (.obj pfields) "inherits" = .ok true := by
      simp [jHasKey, hinh2]
    have hgin : jGetItem (.obj pfields) "inherits" = .ok inh2 := by
      simp [jGetItem, hinh2]
    obtain ⟨q, rest, rfl⟩ : ∃ q rest, items = q :: rest := by
      cases items with
      | nil => exact absurd rfl hne
      | cons q rest => exact ⟨q, rest, rfl⟩
    obtain ⟨ck, cv⟩ := q
    obtain ⟨cands, hc, hfalse⟩ := hnomatch (ck, cv) (List.mem_cons_self _ _)
    have hany : (cands.any fun c => compareVals isNum ck cv c) = false := by
      apply any_false
      intro c hcm
      exact hfalse c hcm
    have hloop : idipLoop isNum key (.obj pfields) ((ck, cv) :: rest)
        = .ok (.recurse inh2) := by
      simp [idipLoop, hhk, hgi, hc, hany, hhi, hgin]
      intro x hx
      exact hfalse x hx
    simp [isDefinedInParent, hdoc, hovr, hpar, hnum, hitems, hloop]
  · intro hni
    have hhi : jHasKey (.obj pfields) "inherits" = .ok false := by
      simp [jHasKey, hni]
    have hloop : ∀ its, (∀ p ∈ its, ∃ cands, checkValuesFor entry p.1 = .ok cands ∧
        ∀ c ∈ cands, compareVals isNum p.1 p.2 c = false) →
        idipLoop isNum key (.obj pfields) its
          = .ok (.done (false, none, none, none)) := by
      intro its
      induction its with
      | nil => intro _; simp [idipLoop]
      | cons q rest ih =>
          intro hall
          obtain ⟨ck, cv⟩ := q
          obtain ⟨cands, hc, hfalse⟩ := hall (ck, cv) (List.mem_cons_self _ _)
          have hany : (cands.any fun c => compareVals isNum ck cv c) = false := by
            apply any_false
            intro c hcm
            exact hfalse c hcm
          have hrest := ih (fun p hp => hall p (List.mem_cons_of_mem _ hp))
          simp [idipLoop, hhk, hgi, hc, hany, hhi, hrest]
          intro x hx
          exact hfalse x hx
    simp [isDefinedInParent, hdoc, hovr, hpar, hnum, hitems, hloop items hnomatch]

/-- Overrides mapping of the C1 witness ancestor: it defines `speed` with a
non-matching value and carries a literal `inherits` binding. -/
def p1fields : JFields := .cons "speed" (.obj (.cons "default_value" (.int 60) .nil))
  (.cons "inherits" (.str "up2") .nil)

/-- The C1 witness ancestor document. -/
def docP1 : JValue := .obj (.cons "overrides" (.obj p1fields) .nil)

/-- The further ancestor named by the overrides-level `inherits`. -/
def docUp2 : JValue := .obj (.cons "overrides"
  (.obj (.cons "speed" (.obj (.cons "default_value" (.int 50) .nil)) .nil)) .nil)

/-- Store for the C1 witness. -/
def defsC1 : Store := [("p1", docP1), ("up2", docUp2), ("fdmprinter", docBase)]

/-- The proposed override fields of the C1 witness. -/
def vd1 : JValue := .obj (.cons "default_value" (.int 50) .nil)

/-- Witness for C1: with `p1`'s overrides defining `speed` at a
non-matching value and carrying `inherits: "up2"`, the resolver at fuel
`4 + 1` equals the resolver one level further up at ancestor `up2`. -/
theorem c1_chain_recursion_witness :
    isDefinedInParent defsC1 (4 + 1) "speed" vd1 (.str "p1")
      = isDefinedInParent defsC1 4 "speed" vd1 (.str "up2") :=
  (c1_chain_recursion defsC1 4 "speed" vd1 docP1
    (.obj (.cons "default_value" (.int 60) .nil)) (.str "p1") p1fields
    [("default_value", .int 50)] false rfl rfl rfl rfl rfl (by simp) rfl
    (fun q hq => by
      rw [List.mem_singleton] at hq
      subst hq
      exact ⟨[.int 60], rfl, fun c hc => by
        rw [List.mem_singleton] at hc
        subst hc
        rfl⟩)).1 (.str "up2") rfl

mutual
/-- Postorder key sequence of one named setting node: its children's keys
first (in document order), then its own name — the insertion order
`_getSetting` follows. -/
def postKeys : Nat → String → JValue → Except PyErr (List String)
  | 0, _, _ => .error .recursionError
  | fuel + 1, name, setting => do
    let hasCh ← jHasKey setting "children"
    let ks ←
      if hasCh then do
        let children ← jGetItem setting "children"
        let items ← jItems children
        postKeysList fuel items
      else
        pure []
    return ks ++ [name]
/-- Postorder key sequence of a list of named settings. -/
def postKeysList : Nat → List (String × JValue) → Except PyErr (List String)
  | 0, _ => .error .recursionError
  | _ + 1, [] => .ok []
  | fuel + 1, (n, s) :: rest => do
    let a ← postKeys fuel n s
    let b ← postKeysList fuel rest
    return a ++ b
end

/-- Inserting a fresh key appends it at the end. -/
theorem dictInsert_not_mem (l : List (String × JValue)) (k : String) (v : JValue)
    (h : k ∉ l.map Prod.fst) : dictInsert l k v = l ++ [(k, v)] := by
  induction l with
  | nil => rfl
  | cons hd tl ih =>
      obtain ⟨a, b⟩ := hd
      simp only [List.map_cons, List.mem_cons] at h
      push_neg at h
      have hak : ¬ (a = k) := fun hh => h.1 hh.symm
      simp only [dictInsert, if_neg hak, List.cons_append, List.cons.injEq, true_and]
      exact ih h.2

/-- The keys of the flat mapping built by `_getSetting` are the
accumulator's keys followed by the node's postorder keys, provided those
keys are jointly distinct (mutual induction on the fuel). -/
theorem flatten_keys : ∀ fuel : Nat,
    (∀ (name : String) (setting : JValue) (acc flat : List (String × JValue))
        (ks : List String),
      getSetting fuel name setting acc = .ok flat →
      postKeys fuel name setting = .ok ks →
      (acc.map Prod.fst ++ ks).Nodup →
      flat.map Prod.fst = acc.map Prod.fst ++ ks) ∧
    (∀ (items acc flat : List (String × JValue)) (ks : List String),
      getSettingList fuel items acc = .ok flat →
      postKeysList fuel items = .ok ks →
      (acc.map Prod.fst ++ ks).Nodup →
      flat.map Prod.fst = acc.map Prod.fst ++ ks) := by
  intro fuel
  induction fuel with
  | zero =>
      constructor
      · intro name setting acc flat ks hg _ _
        rw [getSetting] at hg
        exact Except.noConfusion hg
      · intro items acc flat ks hg _ _
        rw [getSettingList] at hg
        exact Except.noConfusion hg
  | succ n ih =>
      obtain ⟨ihS, ihL⟩ := ih
      constructor
      · intro name setting acc flat ks hg hp hnd
        rw [getSetting] at hg
        rw [postKeys] at hp
        cases hck : jHasKey setting "children" with
        | error e => rw [hck] at hg; exact Except.noConfusion hg
        | ok hasCh =>
            rw [hck, ok_bind] at hg hp
            cases hasCh with
            | false =>
                simp only [Bool.false_eq_true, if_false, pure_eq_ok, ok_bind] at hg hp
                cases hg
                cases hp
                have hnm : name ∉ acc.map Prod.fst := by
                  simp only [List.nil_append] at hnd
                  have := (List.nodup_append.mp hnd).2.2
                  intro hmem
                  exact this hmem (List.mem_singleton.mpr rfl)
                rw [dictInsert_not_mem _ _ _ hnm]
                simp
            | true =>
                simp only [if_true] at hg hp
                cases hgc : jGetItem setting "children" with
                | error e => rw [hgc] at hg; exact Except.noConfusion hg
                | ok children =>
                    rw [hgc, ok_bind] at hg hp
                    cases hit : jItems children with
                    | error e => rw [hit] at hg; exact Except.noConfusion hg
                    | ok items =>
                        rw [hit, ok_bind] at hg hp
                        cases hsl : getSettingList n items acc with
                        | error e => rw [hsl] at hg; exact Except.noConfusion hg
                        | ok s2 =>
                            rw [hsl, ok_bind] at hg
                            cases hg
                            cases hpl : postKeysList n items with
                            | error e => rw [hpl] at hp; exact Except.noConfusion hp
                            | ok ksC =>
                                rw [hpl, ok_bind] at hp
                                cases hp
                                have hnd3 : ((acc.map Prod.fst ++ ksC) ++ [name]).Nodup := by
                                  rw [List.append_assoc]
                                  exact hnd
                                have hnd2 : (acc.map Prod.fst ++ ksC).Nodup :=
                                  List.Nodup.of_append_left hnd3
                                have hs2 := ihL items acc s2 ksC hsl hpl hnd2
                                have hnm : name ∉ s2.map Prod.fst := by
                                  rw [hs2]
                                  have hdisj := (List.nodup_append.mp hnd3).2.2
                                  intro hmem
                                  exact hdisj hmem (List.mem_singleton.mpr rfl)
                                rw [dictInsert_not_mem _ _ _ hnm]
                                simp [hs2]
      · intro items acc flat ks hg hp hnd
        cases items with
        | nil =>
            rw [getSettingList] at hg
            rw [postKeysList] at hp
            cases hg
            cases hp
            simp
        | cons q rest =>
            obtain ⟨nm, st⟩ := q
            rw [getSettingList] at hg
            rw [postKeysList] at hp
            cases h1 : getSetting n nm st acc with
            | error e => rw [h1] at hg; exact Except.noConfusion hg
            | ok s2 =>
                rw [h1, ok_bind] at hg
                cases p1 : postKeys n nm st with
                | error e => rw [p1] at hp; exact Except.noConfusion hp
                | ok ka =>
                    rw [p1, ok_bind] at hp
                    cases p2 : postKeysList n rest with
                    | error e => rw [p2] at hp; exact Except.noConfusion hp
                    | ok kb =>
                        rw [p2, ok_bind] at hp
                        cases hp
                        have hnda : (acc.map Prod.fst ++ ka).Nodup := by
                          have h3 : ((acc.map Prod.fst ++ ka) ++ kb).Nodup := by
                            rw [List.append_assoc]
                            exact hnd
                          exact List.Nodup.of_append_left h3
                        have hs2 := ihS nm st acc s2 ka h1 p1 hnda
                        have hflat := ihL rest s2 flat kb hg p2 (by rw [hs2, List.append_assoc]; exact hnd)
                        rw [hflat, hs2, List.append_assoc]

/-- C7: flattening the base document's `settings` tree yields a flat
mapping whose keys are exactly the postorder key sequence of the tree —
every descendant key and every parent key, the parent's own record inserted
after its children's, nothing lost or duplicated when the tree's keys are
distinct — and `_loadBasePrinterSettings` replaces the base document in the
store by exactly this flat mapping under a sole `overrides` key. -/
theorem c7_flattening (fuel : Nat) (defs : Store) (doc : JValue)
    (sfields : JFields) (flat : List (String × JValue)) (ks : List String)
    (hdoc : storeLookup defs (base_def defs) = some doc)
    (hs : jGetItem doc "settings" = .ok (.obj sfields))
    (hflat : getSettingList fuel sfields.toList [] = .ok flat)
    (hks : postKeysList fuel sfields.toList = .ok ks)
    (hnd : ks.Nodup) :
    flat.map Prod.fst = ks ∧
    loadBasePrinterSettings fuel defs = .ok (dictInsert defs (base_def defs)
      (.obj (.cons "overrides" (.obj (JFields.ofList flat)) .nil))) := by
  constructor
  · have h1 := (flatten_keys fuel).2 sfields.toList [] flat ks hflat hks
      (by simpa using hnd)
    simpa using h1
  · simp [loadBasePrinterSettings, storeGetStr, hdoc, hs, jItems, hflat]

/-- A childless leaf setting. -/
def leafObj : JValue := .obj .nil

/-- A setting node with one child `c`. -/
def bObj : JValue := .obj (.cons "children" (.obj (.cons "c" leafObj .nil)) .nil)

/-- The top-level setting `machine` with children `a` and `b`. -/
def machObj : JValue := .obj (.cons "children"
  (.obj (.cons "a" leafObj (.cons "b" bObj .nil))) .nil)

/-- The base document's `settings` tree of the C7 witness. -/
def sfieldsW : JFields := .cons "machine" machObj .nil

/-- The base document of the C7 witness. -/
def docW : JValue := .obj (.cons "settings" (.obj sfieldsW) .nil)

/-- Store holding only the base document. -/
def defsW : Store := [("fdmprinter", docW)]

/-- The flat mapping the flattener builds on the witness tree. -/
def flatW : List (String × JValue) :=
  [("a", leafObj), ("c", leafObj), ("b", bObj), ("machine", machObj)]

/-- Witness for C7: on the nested tree `machine { a, b { c } }` the flat
keys are the postorder `[a, c, b, machine]` and the store's base document
becomes the flat mapping under `overrides`. -/
theorem c7_flattening_witness :
    flatW.map Prod.fst = ["a", "c", "b", "machine"] ∧
    loadBasePrinterSettings 10 defsW = .ok (dictInsert defsW (base_def defsW)
      (.obj (.cons "overrides" (.obj (JFields.ofList flatW)) .nil))) :=
  c7_flattening 10 defsW docW sfieldsW flatW ["a", "c", "b", "machine"]
    rfl rfl rfl rfl (by decide)

end Cura
